import Mathlib

/-!
Verification model of the `Linkifier` component (src/Linkifier.ts).

The Linkifier keeps a priority-ordered list of link matchers, debounces
linkification requests over row ranges, scans each row's text for pattern
occurrences, optionally gates each occurrence through an asynchronous
validation callback, and registers accepted occurrences as mouse zones.

The embedding below is a shallow translation of the TypeScript source:
  * a matcher's `RegExp` is modelled as its observable behaviour under
    `String.prototype.match` for a non-global regex: a function from the
    input string to `Option` of the capture-group array (index 0 is the
    whole match, a group that did not participate is `none`);
  * the built-in `strictUrlRegex` is modelled by a small backtracking
    regex engine whose pattern AST is transcribed clause by clause from
    the pattern-string constants at the top of the source file;
  * the mutable `Linkifier` object together with the mouse-zone manager's
    zone list and the set of outstanding validation completion closures is
    one explicit state record; `setTimeout`/timer fire and validation
    completion are modelled as separate state-transition events;
  * `_doLinkifyRow` recurses on the remaining text; since the source can
    recurse without consuming input (a zero-length match), the model takes
    a fuel argument and reports fuel exhaustion explicitly.
-/

namespace LinkifierModel

/-- One element of a regular-expression character class: a literal
character, the digit class `\d`, the word class `\w`, or an inclusive
character range. -/
inductive CharSpec where
  | lit (c : Char)
  | digit
  | wordc
  | rng (lo hi : Char)
deriving DecidableEq

/-- Whether a character satisfies a class element (JS semantics:
`\d` is `[0-9]`, `\w` is `[A-Za-z0-9_]`). -/
def charSpecTest : CharSpec → Char → Bool
  | .lit a, c => a == c
  | .digit, c => c.isDigit
  | .wordc, c => c.isAlpha || c.isDigit || c == '_'
  | .rng lo hi, c => decide (lo.toNat ≤ c.toNat) && decide (c.toNat ≤ hi.toNat)

/-- Pattern AST covering the fragment of JS regular expressions used by
`strictUrlRegex`: character classes (possibly negated), sequencing,
preferred-left alternation, greedy star, numbered capture groups and the
`^`/`$` anchors. -/
inductive Pat where
  | eps
  | cls (neg : Bool) (specs : List CharSpec)
  | seqP (p q : Pat)
  | altP (p q : Pat)
  | starP (p : Pat)
  | grp (idx : Nat) (p : Pat)
  | bol
  | eol
deriving DecidableEq

/-- Capture-group slots: for each group index, the half-open span
`(start, stop)` of its most recent successful match, if any. -/
abbrev Caps := List (Option (Nat × Nat))

/-- Backtracking matcher in continuation-passing style. `rem` is the
input suffix at absolute position `i`; the continuation receives the rest
of the input, the new position and the updated captures. Greedy
quantifiers try the longer alternative first and backtrack on failure of
the continuation; a star iteration that consumes nothing is cut off. The
fuel bounds the recursion depth. -/
def mtch : Nat → Pat → List Char → Nat → Caps →
    (List Char → Nat → Caps → Option (Nat × Caps)) → Option (Nat × Caps)
  | 0, _, _, _, _, _ => none
  | _ + 1, .eps, rem, i, cp, k => k rem i cp
  | _ + 1, .bol, rem, i, cp, k => if i = 0 then k rem i cp else none
  | _ + 1, .eol, rem, i, cp, k => if rem.isEmpty then k rem i cp else none
  | _ + 1, .cls neg specs, rem, i, cp, k =>
    match rem with
    | [] => none
    | c :: rest =>
      if (specs.any (fun sp => charSpecTest sp c)) != neg then k rest (i + 1) cp else none
  | f + 1, .seqP p q, rem, i, cp, k =>
    mtch f p rem i cp (fun rem2 i2 cp2 => mtch f q rem2 i2 cp2 k)
  | f + 1, .altP p q, rem, i, cp, k =>
    match mtch f p rem i cp k with
    | some r => some r
    | none => mtch f q rem i cp k
  | f + 1, .starP p, rem, i, cp, k =>
    match mtch f p rem i cp
        (fun rem2 i2 cp2 => if i2 = i then none else mtch f (.starP p) rem2 i2 cp2 k) with
    | some r => some r
    | none => k rem i cp
  | f + 1, .grp idx p, rem, i, cp, k =>
    mtch f p rem i cp (fun rem2 i2 cp2 => k rem2 i2 (cp2.set idx (some (i, i2))))

/-- Fifteen capture slots (whole match plus groups 1–14 of
`strictUrlRegex`), all initially unset. -/
def initCaps : Caps := List.replicate 15 none

/-- Try to match pattern `p` starting at position `i` of `s`; returns the
end position and captures of the first (greedy, leftmost-alternative)
match. -/
def tryAt (fuel : Nat) (p : Pat) (s : List Char) (i : Nat) : Option (Nat × Caps) :=
  mtch fuel p (s.drop i) i initCaps (fun _ i2 cp2 => some (i2, cp2))

/-- Leftmost-match search: try each start position in order, as
`String.prototype.match` does for a non-global regex. -/
def searchPositions (fuel : Nat) (p : Pat) (s : List Char) : List Nat → Option (Nat × Nat × Caps)
  | [] => none
  | i :: rest =>
    match tryAt fuel p s i with
    | some (e, cp) => some (i, e, cp)
    | none => searchPositions fuel p s rest

/-- Leftmost match of `p` in `s`: start position, end position and
captures. -/
def regexSearch (fuel : Nat) (p : Pat) (s : List Char) : Option (Nat × Nat × Caps) :=
  searchPositions fuel p s (List.range (s.length + 1))

/-- A single literal character as a pattern. -/
def litP (c : Char) : Pat := .cls false [.lit c]

/-- `p?`: greedy option. -/
def optP (p : Pat) : Pat := .altP p .eps

/-- Sequence a list of patterns. -/
def seqList (ps : List Pat) : Pat := ps.foldr .seqP .eps

/-- `p+`: one mandatory copy followed by a greedy star. -/
def plusP (p : Pat) : Pat := .seqP p (.starP p)

/-- Exactly `n` copies of `p` (the `{n}` quantifier). -/
def repN : Nat → Pat → Pat
  | 0, _ => .eps
  | n + 1, p => .seqP p (repN n p)

/-- At most `n` further copies of `p`, greedily. -/
def repUpTo : Nat → Pat → Pat
  | 0, _ => .eps
  | n + 1, p => optP (.seqP p (repUpTo n p))

/-- The `{lo,hi}` greedy quantifier. -/
def repRange (lo hi : Nat) (p : Pat) : Pat := .seqP (repN lo p) (repUpTo (hi - lo) p)

/-- A literal string as a pattern. -/
def litStr (s : String) : Pat := seqList (s.data.map litP)

/-! Transcription of the pattern-string constants that build
`strictUrlRegex` in src/Linkifier.ts.  Capture groups are numbered by the
order of their opening parentheses in the concatenated pattern string:
1 = whole URL, 2 = protocol, 3 = host, 4 = domain-with-tld, 5 = domain
body, 6 = tld, 7 = ip, 8 = ip repeat, 9 = localhost, 10 = port,
11 = path segment, 12 = query string, 13 = hash fragment, 14 = trailing
delimiter. -/

/-- Class body of `[\da-z\.-]` (source `domainCharacterSet` without the
quantifier). -/
def domainCharSpecs : List CharSpec := [.digit, .rng 'a' 'z', .lit '.', .lit '-']

/-- Source: `protocolClause = '(https?:\/\/)'`. -/
def protocolClause : Pat := .grp 2 (seqList [litStr "http", optP (litP 's'), litStr "://"])

/-- Source: `domainCharacterSet = '[\da-z\.-]+'`. -/
def domainCharacterSet : Pat := plusP (.cls false domainCharSpecs)

/-- Source: `negatedDomainCharacterSet = '[^\da-z\.-]+'`. -/
def negatedDomainCharacterSet : Pat := plusP (.cls true domainCharSpecs)

/-- Source: `domainBodyClause = '(' + domainCharacterSet + ')'`. -/
def domainBodyClause : Pat := .grp 5 domainCharacterSet

/-- Source: `tldClause = '([a-z\.]{2,6})'`. -/
def tldClause : Pat := .grp 6 (repRange 2 6 (.cls false [.rng 'a' 'z', .lit '.']))

/-- The `\d` single-character class. -/
def digitCls : Pat := .cls false [.digit]

/-- Source: `ipClause = '((\d{1,3}\.){3}\d{1,3})'`. -/
def ipClause : Pat :=
  .grp 7 (.seqP (repN 3 (.grp 8 (.seqP (repRange 1 3 digitCls) (litP '.'))))
    (repRange 1 3 digitCls))

/-- Source: `localHostClause = '(localhost)'`. -/
def localHostClause : Pat := .grp 9 (litStr "localhost")

/-- Source: `portClause = '(:\d{1,5})'`. -/
def portClause : Pat := .grp 10 (.seqP (litP ':') (repRange 1 5 digitCls))

/-- Source: `hostClause = '((' + domainBodyClause + '\.' + tldClause +
')|' + ipClause + '|' + localHostClause + ')' + portClause + '?'`. -/
def hostClause : Pat :=
  .seqP (.grp 3 (.altP (.grp 4 (seqList [domainBodyClause, litP '.', tldClause]))
    (.altP ipClause localHostClause))) (optP portClause)

/-- Source: `pathClause = '(\/[\/\w\.\-%~]*)*'`. -/
def pathClause : Pat :=
  .starP (.grp 11 (.seqP (litP '/')
    (.starP (.cls false [.lit '/', .wordc, .lit '.', .lit '-', .lit '%', .lit '~']))))

/-- Source: `queryStringHashFragmentCharacterSet =
'[0-9\w\[\]\(\)\/\?\!#@$%&\'*+,:;~\=\.\-]*'` (the apostrophe is written
as `Char.ofNat 39`). -/
def queryStringHashFragmentCharacterSet : Pat :=
  .starP (.cls false [.rng '0' '9', .wordc, .lit '[', .lit ']', .lit '(', .lit ')',
    .lit '/', .lit '?', .lit '!', .lit '#', .lit '@', .lit '$', .lit '%', .lit '&',
    .lit (Char.ofNat 39), .lit '*', .lit '+', .lit ',', .lit ':', .lit ';',
    .lit '~', .lit '=', .lit '.', .lit '-'])

/-- Source: `queryStringClause = '(\?' + queryStringHashFragmentCharacterSet + ')?'`. -/
def queryStringClause : Pat :=
  optP (.grp 12 (.seqP (litP '?') queryStringHashFragmentCharacterSet))

/-- Source: `hashFragmentClause = '(#' + queryStringHashFragmentCharacterSet + ')?'`. -/
def hashFragmentClause : Pat :=
  optP (.grp 13 (.seqP (litP '#') queryStringHashFragmentCharacterSet))

/-- Source: `negatedPathCharacterSet = '[^\/\w\.\-%]+'`. -/
def negatedPathCharacterSet : Pat :=
  plusP (.cls true [.lit '/', .wordc, .lit '.', .lit '-', .lit '%'])

/-- Source: `bodyClause = hostClause + pathClause + queryStringClause +
hashFragmentClause`. -/
def bodyClause : Pat := seqList [hostClause, pathClause, queryStringClause, hashFragmentClause]

/-- Source: `start = '(?:^|' + negatedDomainCharacterSet + ')('` — the
leading context alternative (the open parenthesis of group 1 is placed in
`strictUrlPat` below). -/
def startClause : Pat := .altP .bol negatedDomainCharacterSet

/-- Source: `end = ')($|' + negatedPathCharacterSet + ')'` — the trailing
delimiter, capture group 14. -/
def endClause : Pat := .grp 14 (.altP .eol negatedPathCharacterSet)

/-- Source: `strictUrlRegex = new RegExp(start + protocolClause +
bodyClause + end)`. -/
def strictUrlPat : Pat :=
  seqList [startClause, .grp 1 (.seqP protocolClause bodyClause), endClause]

/-- Substring of `s` spanning the half-open index range `[st, en)`. -/
def sliceStr (s : List Char) (st en : Nat) : String :=
  String.mk ((s.drop st).take (en - st))

/-- Render one capture slot as the captured substring. -/
def capToStr (s : List Char) : Option (Nat × Nat) → Option String
  | none => none
  | some (a, b) => some (sliceStr s a b)

/-- The observable behaviour of `strictUrlRegex` under
`String.prototype.match`: `none` when there is no match, otherwise the
array of the whole match followed by the fourteen capture groups. -/
def strictUrlRegexModel (text : String) : Option (List (Option String)) :=
  match regexSearch 1000 strictUrlPat text.data with
  | none => none
  | some (st, en, cp) =>
    some (some (sliceStr text.data st en) ::
      (List.range 14).map (fun j => capToStr text.data (cp.getD (j + 1) none)))

/-! JavaScript string primitives used by `_doLinkifyRow`. -/

/-- Whether `needle` is an initial segment of `hay`. -/
def listLeads : List Char → List Char → Bool
  | [], _ => true
  | _ :: _, [] => false
  | a :: as2, b :: bs => a == b && listLeads as2 bs

/-- First position at or after `i` where `needle` starts in the given
suffix of the haystack. -/
def indexOfAux (needle : List Char) : List Char → Nat → Option Nat
  | [], i => if listLeads needle [] then some i else none
  | c :: rest, i =>
    if listLeads needle (c :: rest) then some i else indexOfAux needle rest (i + 1)

/-- `String.prototype.indexOf`: position of the first occurrence of
`needle` in `hay`, `-1` when absent (and `0` for an empty needle). -/
def jsIndexOf (hay needle : String) : Int :=
  match indexOfAux needle.data hay.data 0 with
  | some n => (n : Int)
  | none => -1

/-- `String.prototype.substr(start)` (one-argument form): the suffix from
`start`, where a negative `start` counts back from the end, clamped at 0,
and a `start` beyond the end yields the empty string. -/
def jsSubstr (s : String) (st : Int) : String :=
  let st2 : Int := if st < 0 then max ((s.length : Int) + st) 0 else st
  String.mk (s.data.drop st2.toNat)

/-! The Linkifier data model.  The mutable `Linkifier` object, the mouse
zone manager's zone list and the set of outstanding validation completion
closures are combined into one state record.  Handlers and callbacks are
user-supplied opaque functions; only their presence (JS truthiness) and
identity matter to the engine, so they are modelled as `Option Nat`
tokens. -/

/-- One registered link matcher (`LinkMatcher` in src/Types.ts). -/
structure LinkMatcher where
  id : Nat
  regex : String → Option (List (Option String))
  handler : Option Nat
  matchIndex : Option Nat
  validationCallback : Option Nat
  hoverStartCallback : Option Nat
  hoverEndCallback : Option Nat
  priority : Int

/-- An occurrence located by the row scan: absolute column (`offset +
index`, an `Int` because `indexOf` can return `-1`), row index, link text
and owning matcher id.  The same data is what a pending validation
completion closure captures. -/
structure Occurrence where
  x : Int
  row : Nat
  uri : String
  matcherId : Nat
deriving DecidableEq

/-- A registered mouse zone: the `MouseZone(x + 1, x + 1 + uri.length,
y + 1, ...)` constructed by `_addLink`, with the link text and matcher id
captured by its callbacks. -/
structure Zone where
  x1 : Int
  x2 : Int
  y1 : Nat
  uri : String
  matcherId : Nat
deriving DecidableEq

/-- The terminal buffer accessor consumed by `_linkifyRow`. -/
structure TerminalBuffer where
  ydisp : Nat
  linesLength : Nat
  translate : Nat → String

/-- `ILinkMatcherOptions`: all fields optional. -/
structure ILinkMatcherOptions where
  matchIndex : Option Nat := none
  validationCallback : Option Nat := none
  hoverStartCallback : Option Nat := none
  hoverEndCallback : Option Nat := none
  priority : Option Int := none

/-- The combined state: the `Linkifier` fields (`_linkMatchers`,
`_mouseZoneManager` presence, `_rowsTimeoutId` with the row range its
timer closure captured, `_nextLinkMatcherId`), the zone manager's zones,
the outstanding validation completions, and two ghost observation lists
(`scannedRows` records each `_linkifyRow` call, `occurrences` each
occurrence found) used only to state properties. -/
structure LinkifierState where
  linkMatchers : List LinkMatcher
  attached : Bool
  rowsTimeoutId : Option (Nat × Nat)
  nextLinkMatcherId : Nat
  zones : List Zone
  pendingValidations : List Occurrence
  scannedRows : List Nat
  occurrences : List Occurrence

/-- How a single-row scan can abort: the model's fuel ran out (the source
recursion does not terminate), or the JS code would throw a `TypeError`
(`uri` is `undefined` because the configured capture group is absent). -/
inductive RowFault where
  | outOfFuel
  | typeError
deriving DecidableEq

/-- The zone built by `_addLink`: 1-based span `[x + 1, x + 1 +
uri.length)` on 1-based row `y + 1`. -/
def mkZone (x : Int) (y : Nat) (uri : String) (matcherId : Nat) : Zone :=
  ⟨x + 1, x + 1 + (uri.length : Int), y + 1, uri, matcherId⟩

/-- `_addLink`: register a zone with the mouse zone manager. -/
def addLink (s : LinkifierState) (x : Int) (y : Nat) (uri : String)
    (matcher : LinkMatcher) : LinkifierState :=
  { s with zones := s.zones ++ [mkZone x y uri matcher.id] }

/-- `attachToDom`: supply the mouse zone manager. -/
def attachToDom (s : LinkifierState) : LinkifierState := { s with attached := true }

/-- `linkifyRows(start, end)`: no-op when unattached; otherwise clear all
zones, cancel any pending timer and arm a new one whose closure captures
the requested inclusive row range. -/
def linkifyRows (s : LinkifierState) (startRow endRow : Nat) : LinkifierState :=
  if s.attached = false then s
  else { s with zones := [], rowsTimeoutId := some (startRow, endRow) }

/-- `_doLinkifyRow(rowIndex, text, matcher, offset)`: find the first
match, select the link text (`matchIndex` group or whole match), locate
it with `indexOf`, either register the zone immediately or hand a
completion closure to the validation callback, and recurse on the text
past the link.  The fuel bounds the recursion; the source has no
effective guard against a zero-length link text, in which case the
recursion never terminates and every fuel value is exhausted.  (In the
source, an `undefined` link text leads to a thrown `TypeError` on
`uri.length`; the model reports `RowFault.typeError` at that point.) -/
def doLinkifyRow : Nat → LinkifierState → Nat → String → LinkMatcher → Int →
    LinkifierState × Option RowFault
  | 0, s, _, _, _, _ => (s, some .outOfFuel)
  | fuel + 1, s, rowIndex, text, m, offset =>
    match m.regex text with
    | none => (s, none)
    | some groups =>
      if groups.length = 0 then (s, none)
      else
        match groups.getD (match m.matchIndex with | none => 0 | some k => k) none with
        | none => (s, some .typeError)
        | some uri =>
          let index : Int := jsIndexOf text uri
          let withOcc := { s with
            occurrences := s.occurrences ++ [⟨offset + index, rowIndex, uri, m.id⟩] }
          let s1 :=
            if m.validationCallback.isSome then
              { withOcc with pendingValidations :=
                withOcc.pendingValidations ++ [⟨offset + index, rowIndex, uri, m.id⟩] }
            else addLink withOcc (offset + index) rowIndex uri m
          let remainingStartIndex : Int := index + (uri.length : Int)
          let remainingText := jsSubstr text remainingStartIndex
          if remainingText.length > 0 then
            doLinkifyRow fuel s1 rowIndex remainingText m (offset + remainingStartIndex)
          else (s1, none)

/-- The matcher loop of `_linkifyRow`, aborting on a fault as a thrown
exception would abort the row. -/
def runMatchers (fuel : Nat) (rowIndex : Nat) (text : String) :
    List LinkMatcher → LinkifierState → LinkifierState × Option RowFault
  | [], s => (s, none)
  | m :: ms, s =>
    match doLinkifyRow fuel s rowIndex text m 0 with
    | (s2, none) => runMatchers fuel rowIndex text ms s2
    | (s2, some fault) => (s2, some fault)

/-- `_linkifyRow(rowIndex)`: resolve the absolute row, silently skip rows
beyond the buffer, otherwise fetch the row text and run every matcher on
it.  The call itself is recorded in the ghost `scannedRows`. -/
def linkifyRow (fuel : Nat) (term : TerminalBuffer) (s : LinkifierState)
    (rowIndex : Nat) : LinkifierState × Option RowFault :=
  let s0 := { s with scannedRows := s.scannedRows ++ [rowIndex] }
  let absoluteRowIndex := term.ydisp + rowIndex
  if term.linesLength ≤ absoluteRowIndex then (s0, none)
  else runMatchers fuel rowIndex (term.translate absoluteRowIndex) s0.linkMatchers s0

/-- The inclusive row range `[startRow, endRow]` iterated by the
`for (let i = start; i <= end; i++)` loop (empty when `endRow <
startRow`). -/
def rowsFromTo (startRow endRow : Nat) : List Nat :=
  (List.range (endRow + 1 - startRow)).map (fun k => startRow + k)

/-- The row loop of `_linkifyRows`, aborting on a fault. -/
def linkifyRowsLoop (fuel : Nat) (term : TerminalBuffer) :
    List Nat → LinkifierState → LinkifierState × Option RowFault
  | [], s => (s, none)
  | r :: rs, s =>
    match linkifyRow fuel term s r with
    | (s2, none) => linkifyRowsLoop fuel term rs s2
    | (s2, some fault) => (s2, some fault)

/-- `_linkifyRows(start, end)`: clear the pending-timer marker, then scan
every row of the inclusive range. -/
def linkifyRowsRun (fuel : Nat) (s : LinkifierState) (startRow endRow : Nat)
    (term : TerminalBuffer) : LinkifierState × Option RowFault :=
  linkifyRowsLoop fuel term (rowsFromTo startRow endRow) { s with rowsTimeoutId := none }

/-- The debounce timer firing: runs the `_linkifyRows` closure armed by
the most recent `linkifyRows` call; a no-op when no timer is pending. -/
def timerFire (fuel : Nat) (s : LinkifierState) (term : TerminalBuffer) :
    LinkifierState × Option RowFault :=
  match s.rowsTimeoutId with
  | none => (s, none)
  | some (a, b) => linkifyRowsRun fuel s a b term

/-- Invoking the completion closure a validation callback received for
occurrence `p`: if `_rowsTimeoutId` is set (truthy) the result is
discarded; otherwise a `true` result registers the zone via `_addLink`. -/
def invokeCompletion (s : LinkifierState) (p : Occurrence) (isValid : Bool) :
    LinkifierState :=
  if s.rowsTimeoutId.isSome then s
  else if isValid then { s with zones := s.zones ++ [mkZone p.x p.row p.uri p.matcherId] }
  else s

/-- The downward scan of `_addLinkMatcherToList`, expressed on the
reversed list: walking from the back of the matcher list, the new
matcher is spliced in immediately after the last existing entry whose
priority is at least the new one's. -/
def insertFromBack (m : LinkMatcher) : List LinkMatcher → List LinkMatcher
  | [] => [m]
  | x :: xs => if m.priority ≤ x.priority then m :: x :: xs else x :: insertFromBack m xs

/-- `_addLinkMatcherToList`: push into an empty list, otherwise scan from
the end for the insertion point (falling through to the front). -/
def addLinkMatcherToList (l : List LinkMatcher) (m : LinkMatcher) : List LinkMatcher :=
  if l.isEmpty then [m]
  else (insertFromBack m l.reverse).reverse

/-- `registerLinkMatcher(regex, handler, options)`: throw when the
handler is absent for any matcher other than the built-in one (the
first, id 0), otherwise build the matcher (priority defaulting to 0 via
`options.priority || 0`), insert it and return the fresh id. -/
def registerLinkMatcher (s : LinkifierState)
    (regex : String → Option (List (Option String))) (handler : Option Nat)
    (options : ILinkMatcherOptions) : Except String (LinkifierState × Nat) :=
  if s.nextLinkMatcherId ≠ 0 ∧ handler = none then .error "handler must be defined"
  else
    let m : LinkMatcher :=
      { id := s.nextLinkMatcherId
        regex := regex
        handler := handler
        matchIndex := options.matchIndex
        validationCallback := options.validationCallback
        hoverStartCallback := options.hoverStartCallback
        hoverEndCallback := options.hoverEndCallback
        priority := options.priority.getD 0 }
    .ok ({ s with
      linkMatchers := addLinkMatcherToList s.linkMatchers m
      nextLinkMatcherId := s.nextLinkMatcherId + 1 }, m.id)

/-- The search of `deregisterLinkMatcher` over `_linkMatchers[1..]`:
remove the first entry at index ≥ 1 whose id matches. -/
def removeFirstById : List LinkMatcher → Nat → Option (List LinkMatcher)
  | [], _ => none
  | x :: xs, i =>
    if x.id = i then some xs else (removeFirstById xs i).map (fun ys => x :: ys)

/-- `deregisterLinkMatcher(matcherId)`: the loop starts at index 1 (the
entry at index 0 is never examined) and reports whether an entry was
removed. -/
def deregisterLinkMatcher (s : LinkifierState) (matcherId : Nat) :
    Bool × LinkifierState :=
  match s.linkMatchers with
  | [] => (false, s)
  | x :: xs =>
    match removeFirstById xs matcherId with
    | some xs2 => (true, { s with linkMatchers := x :: xs2 })
    | none => (false, s)

/-- Replace the fields of the entry at index 0 of the matcher list
(`_linkMatchers[HYPERTEXT_LINK_MATCHER_ID]` — the constant 0 is used as
an array index in the source). -/
def updateIndexZero (l : List LinkMatcher) (f : LinkMatcher → LinkMatcher) :
    List LinkMatcher :=
  match l with
  | [] => []
  | m :: ms => f m :: ms

/-- `setHypertextLinkHandler(handler)`. -/
def setHypertextLinkHandler (s : LinkifierState) (handler : Option Nat) :
    LinkifierState :=
  { s with linkMatchers := updateIndexZero s.linkMatchers (fun m => { m with handler := handler }) }

/-- `setHypertextValidationCallback(callback)`. -/
def setHypertextValidationCallback (s : LinkifierState) (callback : Option Nat) :
    LinkifierState :=
  { s with linkMatchers :=
    updateIndexZero s.linkMatchers (fun m => { m with validationCallback := callback }) }

/-- The state of a `Linkifier` object before its constructor body runs. -/
def emptyState : LinkifierState :=
  { linkMatchers := []
    attached := false
    rowsTimeoutId := none
    nextLinkMatcherId := 0
    zones := []
    pendingValidations := []
    scannedRows := []
    occurrences := [] }

/-- The state after construction: the constructor registers the built-in
hypertext matcher `registerLinkMatcher(strictUrlRegex, null,
{ matchIndex: 1 })` (this call cannot throw since `_nextLinkMatcherId`
is 0). -/
def initState : LinkifierState :=
  match registerLinkMatcher emptyState strictUrlRegexModel none { matchIndex := some 1 } with
  | .ok (s, _) => s
  | .error _ => emptyState

/-- One registration request: the arguments of a `registerLinkMatcher`
call. -/
structure RegReq where
  regex : String → Option (List (Option String))
  handler : Option Nat
  options : ILinkMatcherOptions

/-- Perform one registration; a thrown configuration error leaves the
registry unchanged. -/
def applyReg (s : LinkifierState) (r : RegReq) : LinkifierState :=
  match registerLinkMatcher s r.regex r.handler r.options with
  | .ok (s2, _) => s2
  | .error _ => s

/-- Perform a sequence of registrations. -/
def applyRegs (s : LinkifierState) (rs : List RegReq) : LinkifierState :=
  rs.foldl applyReg s

/-! Concrete regex behaviours used in witnesses and counterexamples. -/

/-- The behaviour of the JS regex `/abc/` on the inputs of interest:
matches exactly the text `"abc"`. -/
def abcRegexModel : String → Option (List (Option String)) :=
  fun t => if t = "abc" then some [some "abc"] else none

/-- The behaviour of a JS regex that can match the empty string (such as
`/x*/` on text containing no `x`): the match array is `[""]`. -/
def emptyMatchRegexModel : String → Option (List (Option String)) :=
  fun _ => some [some ""]

/-- A regex that never matches. -/
def neverMatchRegexModel : String → Option (List (Option String)) :=
  fun _ => none

/-- The registry order: an entry `a` may precede an entry `b` only when
`b`'s priority is strictly lower, or the priorities are equal and `a` was
registered earlier (ids are assigned from a monotonically increasing
counter, so earlier registration means a smaller id). -/
def matcherOrd (a b : LinkMatcher) : Prop :=
  b.priority < a.priority ∨ (b.priority = a.priority ∧ a.id < b.id)

/-- Registry invariant: the matcher list is sorted by `matcherOrd` and
every registered id is below the id counter. -/
def RegistryInv (s : LinkifierState) : Prop :=
  s.linkMatchers.Pairwise matcherOrd ∧ ∀ m ∈ s.linkMatchers, m.id < s.nextLinkMatcherId

/-- What a scan pass may do to the state: the matcher registry (list,
id counter) and the attachment flag are untouched, and the zone list and
the outstanding validations only grow at the end. -/
def ScanFrame (s s2 : LinkifierState) : Prop :=
  s2.linkMatchers = s.linkMatchers ∧
  s2.nextLinkMatcherId = s.nextLinkMatcherId ∧
  s2.attached = s.attached ∧
  (∃ zs, s2.zones = s.zones ++ zs) ∧
  (∃ ps, s2.pendingValidations = s.pendingValidations ++ ps)

/-! Concrete states and traces referred to by specific properties. -/

/-- The built-in hypertext matcher the constructor registers: id 0,
`strictUrlRegex`, no handler, `matchIndex` 1, priority 0. -/
def hypertextMatcher : LinkMatcher :=
  { id := 0
    regex := strictUrlRegexModel
    handler := none
    matchIndex := some 1
    validationCallback := none
    hoverStartCallback := none
    hoverEndCallback := none
    priority := 0 }

/-- A matcher whose pattern can match the empty string (such as `/x*/`),
registered with a handler and no validation callback. -/
def emptyMatchMatcher : LinkMatcher :=
  { id := 1
    regex := emptyMatchRegexModel
    handler := some 1
    matchIndex := none
    validationCallback := none
    hoverStartCallback := none
    hoverEndCallback := none
    priority := 0 }

/-- The registry right after one non-built-in matcher is registered with
priority 1: by the insertion rule it lands at index 0, ahead of the
built-in matcher, which moves to index 1. -/
def bugState : LinkifierState :=
  applyReg initState ⟨neverMatchRegexModel, some 7, { priority := some 1 }⟩

/-- A ten-row buffer whose every row reads `"abc"`. -/
def c1Term : TerminalBuffer := ⟨0, 10, fun _ => "abc"⟩

/-- Attached linkifier with one extra matcher for `"abc"` (id 1) that has
an asynchronous validation callback. -/
def c1Registered : LinkifierState :=
  applyReg (attachToDom initState) ⟨abcRegexModel, some 1, { validationCallback := some 0 }⟩

/-- State after requesting and firing a scan of row 0: the `"abc"`
occurrence was found and its completion closure handed to the validation
callback. -/
def c1AfterFirstScan : LinkifierState :=
  (timerFire 1000 (linkifyRows c1Registered 0 0) c1Term).1

/-- The occurrence the first scan found (column 0, row 0, text `"abc"`,
matcher 1). -/
def c1Occ : Occurrence := ⟨0, 0, "abc", 1⟩

/-- State after a second scan was requested (while the first occurrence's
validation was still outstanding) and its timer has also fired. -/
def c1AfterSecondScan : LinkifierState :=
  (timerFire 1000 (linkifyRows c1AfterFirstScan 0 0) c1Term).1

/-- A buffer of `r + 1` rows whose every row reads
`"visit http://example.com now"`. -/
def c9Term (r : Nat) : TerminalBuffer := ⟨0, r + 1, fun _ => "visit http://example.com now"⟩

/-- The attached, built-in-only linkifier state right after
`linkifyRows r r` armed the timer. -/
def c9Mid (r : Nat) : LinkifierState :=
  { linkMatchers := [hypertextMatcher]
    attached := true
    rowsTimeoutId := some (r, r)
    nextLinkMatcherId := 1
    zones := []
    pendingValidations := []
    scannedRows := []
    occurrences := [] }

/-- Expected state after the built-in-only scan of row `r` of `c9Term r`:
one occurrence at column 6 and one zone spanning 1-based columns
`[7, 25)` on 1-based row `r + 1`. -/
def c9Final (r : Nat) : LinkifierState :=
  { linkMatchers := [hypertextMatcher]
    attached := true
    rowsTimeoutId := none
    nextLinkMatcherId := 1
    zones := [⟨7, 25, r + 1, "http://example.com", 0⟩]
    pendingValidations := []
    scannedRows := [r]
    occurrences := [⟨6, r, "http://example.com", 0⟩] }

end LinkifierModel

namespace LinkifierModel

theorem scanFrame_refl (s : LinkifierState) : ScanFrame s s :=
  ⟨rfl, rfl, rfl, ⟨[], (List.append_nil _).symm⟩, ⟨[], (List.append_nil _).symm⟩⟩

theorem scanFrame_trans {a b c : LinkifierState} (h1 : ScanFrame a b)
    (h2 : ScanFrame b c) : ScanFrame a c := by
  obtain ⟨e1, e2, e3, ⟨zs1, hz1⟩, ⟨ps1, hp1⟩⟩ := h1
  obtain ⟨f1, f2, f3, ⟨zs2, hz2⟩, ⟨ps2, hp2⟩⟩ := h2
  exact ⟨f1.trans e1, f2.trans e2, f3.trans e3,
    ⟨zs1 ++ zs2, by rw [hz2, hz1, List.append_assoc]⟩,
    ⟨ps1 ++ ps2, by rw [hp2, hp1, List.append_assoc]⟩⟩

theorem doLinkifyRow_frame (fuel : Nat) :
    ∀ (s : LinkifierState) (r : Nat) (t : String) (m : LinkMatcher) (o : Int),
      ScanFrame s (doLinkifyRow fuel s r t m o).1 := by
  induction fuel with
  | zero => intro s r t m o; exact scanFrame_refl s
  | succ f ih =>
    intro s r t m o
    rw [doLinkifyRow]
    cases m.regex t with
    | none => exact scanFrame_refl s
    | some groups =>
      simp only []
      split
      · exact scanFrame_refl s
      · split
        · exact scanFrame_refl s
        · rename_i uri _
          have hstep : ScanFrame s
              (if m.validationCallback.isSome then
                { s with
                  occurrences := s.occurrences ++ [⟨o + jsIndexOf t uri, r, uri, m.id⟩],
                  pendingValidations :=
                    s.pendingValidations ++ [⟨o + jsIndexOf t uri, r, uri, m.id⟩] }
              else addLink { s with
                  occurrences := s.occurrences ++ [⟨o + jsIndexOf t uri, r, uri, m.id⟩] }
                (o + jsIndexOf t uri) r uri m) := by
            split
            · exact ⟨rfl, rfl, rfl, ⟨[], (List.append_nil _).symm⟩, ⟨[⟨o + jsIndexOf t uri, r, uri, m.id⟩], rfl⟩⟩
            · exact ⟨rfl, rfl, rfl, ⟨[mkZone (o + jsIndexOf t uri) r uri m.id], rfl⟩,
                ⟨[], (List.append_nil _).symm⟩⟩
          split
          · exact scanFrame_trans hstep (ih _ _ _ _ _)
          · exact hstep

theorem runMatchers_frame (fuel : Nat) (r : Nat) (t : String) :
    ∀ (ms : List LinkMatcher) (s : LinkifierState),
      ScanFrame s (runMatchers fuel r t ms s).1 := by
  intro ms
  induction ms with
  | nil => intro s; exact scanFrame_refl s
  | cons m rest ih =>
    intro s
    rw [runMatchers]
    cases hdo : doLinkifyRow fuel s r t m 0 with
    | mk s2 fault =>
      have hf : ScanFrame s s2 := by
        have := doLinkifyRow_frame fuel s r t m 0
        rwa [hdo] at this
      cases fault with
      | none => exact scanFrame_trans hf (ih s2)
      | some _ => exact hf

theorem linkifyRow_frame (fuel : Nat) (term : TerminalBuffer) (s : LinkifierState)
    (r : Nat) : ScanFrame s (linkifyRow fuel term s r).1 := by
  rw [linkifyRow]
  have hghost : ScanFrame s { s with scannedRows := s.scannedRows ++ [r] } :=
    ⟨rfl, rfl, rfl, ⟨[], (List.append_nil _).symm⟩, ⟨[], (List.append_nil _).symm⟩⟩
  split
  · exact hghost
  · exact scanFrame_trans hghost (runMatchers_frame fuel r _ _ _)

theorem linkifyRowsLoop_frame (fuel : Nat) (term : TerminalBuffer) :
    ∀ (rows : List Nat) (s : LinkifierState),
      ScanFrame s (linkifyRowsLoop fuel term rows s).1 := by
  intro rows
  induction rows with
  | nil => intro s; exact scanFrame_refl s
  | cons r rest ih =>
    intro s
    rw [linkifyRowsLoop]
    cases hrow : linkifyRow fuel term s r with
    | mk s2 fault =>
      have hf : ScanFrame s s2 := by
        have := linkifyRow_frame fuel term s r
        rwa [hrow] at this
      cases fault with
      | none => exact scanFrame_trans hf (ih s2)
      | some _ => exact hf

theorem linkifyRowsRun_frame (fuel : Nat) (s : LinkifierState) (a b : Nat)
    (term : TerminalBuffer) : ScanFrame s (linkifyRowsRun fuel s a b term).1 := by
  rw [linkifyRowsRun]
  have hclear : ScanFrame s { s with rowsTimeoutId := none } :=
    ⟨rfl, rfl, rfl, ⟨[], (List.append_nil _).symm⟩, ⟨[], (List.append_nil _).symm⟩⟩
  exact scanFrame_trans hclear (linkifyRowsLoop_frame fuel term _ _)

/-! Preservation facts used to pin down what a timer fire scans: no part
of the per-row machinery touches the timer marker, and the rows a
completed scan visits are exactly the requested range. -/

theorem doLinkifyRow_timeout_scanned (fuel : Nat) :
    ∀ (s : LinkifierState) (r : Nat) (t : String) (m : LinkMatcher) (o : Int),
      (doLinkifyRow fuel s r t m o).1.rowsTimeoutId = s.rowsTimeoutId ∧
      (doLinkifyRow fuel s r t m o).1.scannedRows = s.scannedRows := by
  induction fuel with
  | zero => intro s r t m o; exact ⟨rfl, rfl⟩
  | succ f ih =>
    intro s r t m o
    rw [doLinkifyRow]
    cases m.regex t with
    | none => exact ⟨rfl, rfl⟩
    | some groups =>
      simp only []
      split
      · exact ⟨rfl, rfl⟩
      · split
        · exact ⟨rfl, rfl⟩
        · split
          · split
            · exact ih _ _ _ _ _
            · exact ih _ _ _ _ _
          · split
            · exact ⟨rfl, rfl⟩
            · exact ⟨rfl, rfl⟩

theorem runMatchers_timeout_scanned (fuel : Nat) (r : Nat) (t : String) :
    ∀ (ms : List LinkMatcher) (s : LinkifierState),
      (runMatchers fuel r t ms s).1.rowsTimeoutId = s.rowsTimeoutId ∧
      (runMatchers fuel r t ms s).1.scannedRows = s.scannedRows := by
  intro ms
  induction ms with
  | nil => intro s; exact ⟨rfl, rfl⟩
  | cons m rest ih =>
    intro s
    rw [runMatchers]
    cases hdo : doLinkifyRow fuel s r t m 0 with
    | mk s2 fault =>
      have hpres := doLinkifyRow_timeout_scanned fuel s r t m 0
      rw [hdo] at hpres
      cases fault with
      | none =>
        have hrec := ih s2
        exact ⟨hrec.1.trans hpres.1, hrec.2.trans hpres.2⟩
      | some _ => exact hpres

theorem linkifyRow_timeout_scanned (fuel : Nat) (term : TerminalBuffer)
    (s : LinkifierState) (r : Nat) :
    (linkifyRow fuel term s r).1.rowsTimeoutId = s.rowsTimeoutId ∧
    (linkifyRow fuel term s r).1.scannedRows = s.scannedRows ++ [r] := by
  rw [linkifyRow]
  split
  · exact ⟨rfl, rfl⟩
  · have := runMatchers_timeout_scanned fuel r (term.translate (term.ydisp + r))
      { s with scannedRows := s.scannedRows ++ [r] }.linkMatchers
      { s with scannedRows := s.scannedRows ++ [r] }
    exact ⟨this.1, this.2⟩

theorem linkifyRowsLoop_timeout (fuel : Nat) (term : TerminalBuffer) :
    ∀ (rows : List Nat) (s : LinkifierState),
      (linkifyRowsLoop fuel term rows s).1.rowsTimeoutId = s.rowsTimeoutId := by
  intro rows
  induction rows with
  | nil => intro s; rfl
  | cons r rest ih =>
    intro s
    rw [linkifyRowsLoop]
    cases hrow : linkifyRow fuel term s r with
    | mk s2 fault =>
      have hpres := (linkifyRow_timeout_scanned fuel term s r).1
      rw [hrow] at hpres
      cases fault with
      | none => exact (ih s2).trans hpres
      | some _ => exact hpres

theorem linkifyRowsLoop_scanned (fuel : Nat) (term : TerminalBuffer) :
    ∀ (rows : List Nat) (s : LinkifierState),
      (linkifyRowsLoop fuel term rows s).2 = none →
      (linkifyRowsLoop fuel term rows s).1.scannedRows = s.scannedRows ++ rows := by
  intro rows
  induction rows with
  | nil => intro s _; exact (List.append_nil _).symm
  | cons r rest ih =>
    intro s hok
    rw [linkifyRowsLoop] at hok ⊢
    cases hrow : linkifyRow fuel term s r with
    | mk s2 fault =>
      rw [hrow] at hok
      have hpres := (linkifyRow_timeout_scanned fuel term s r).2
      rw [hrow] at hpres
      cases fault with
      | none =>
        have hrec := ih s2 hok
        rw [hrec, hpres, List.append_assoc]
        rfl
      | some _ => exact absurd hok (by simp)

/-! Registry-order machinery: `_addLinkMatcherToList` keeps the list
sorted by descending priority with ties broken towards the
earlier-registered (smaller-id) entry, provided every id already present
is below the id of the entry being inserted. -/

theorem mem_insertFromBack (m : LinkMatcher) :
    ∀ (l : List LinkMatcher) (z : LinkMatcher),
      z ∈ insertFromBack m l ↔ z = m ∨ z ∈ l := by
  intro l
  induction l with
  | nil => intro z; simp [insertFromBack]
  | cons x xs ih =>
    intro z
    rw [insertFromBack]
    split
    · simp
    · simp only [List.mem_cons, ih]
      tauto

theorem insertFromBack_pairwise (m : LinkMatcher) :
    ∀ (l : List LinkMatcher),
      l.Pairwise (fun a b => matcherOrd b a) →
      (∀ z ∈ l, z.id < m.id) →
      (insertFromBack m l).Pairwise (fun a b => matcherOrd b a) := by
  intro l
  induction l with
  | nil => intro _ _; simp [insertFromBack]
  | cons x xs ih =>
    intro hp hid
    rw [List.pairwise_cons] at hp
    rw [insertFromBack]
    split
    · rename_i hle
      have hall : ∀ y ∈ x :: xs, matcherOrd y m := by
        intro y hy
        have hyp : m.priority ≤ y.priority := by
          rcases List.mem_cons.mp hy with rfl | hyxs
          · exact hle
          · rcases hp.1 y hyxs with h | ⟨h, _⟩
            · exact hle.trans h.le
            · exact h ▸ hle
        have hyid : y.id < m.id := hid y hy
        rcases lt_or_eq_of_le hyp with h | h
        · exact Or.inl h
        · exact Or.inr ⟨h, hyid⟩
      exact List.pairwise_cons.mpr ⟨hall, List.pairwise_cons.mpr hp⟩
    · rename_i hgt
      have hxm : x.priority < m.priority := lt_of_not_le hgt
      refine List.pairwise_cons.mpr ⟨?_, ?_⟩
      · intro y hy
        rcases (mem_insertFromBack m xs y).mp hy with rfl | hyxs
        · exact Or.inl hxm
        · exact hp.1 y hyxs
      · exact ih hp.2 (fun z hz => hid z (List.mem_cons_of_mem x hz))

theorem mem_addLinkMatcherToList (l : List LinkMatcher) (m : LinkMatcher)
    (z : LinkMatcher) : z ∈ addLinkMatcherToList l m ↔ z = m ∨ z ∈ l := by
  rw [addLinkMatcherToList]
  split
  · rename_i hemp
    rw [List.isEmpty_iff] at hemp
    subst hemp
    simp
  · rw [List.mem_reverse, mem_insertFromBack, List.mem_reverse]

theorem addLinkMatcherToList_pairwise (l : List LinkMatcher) (m : LinkMatcher)
    (hp : l.Pairwise matcherOrd) (hid : ∀ z ∈ l, z.id < m.id) :
    (addLinkMatcherToList l m).Pairwise matcherOrd := by
  rw [addLinkMatcherToList]
  split
  · simp
  · rw [List.pairwise_reverse]
    exact insertFromBack_pairwise m l.reverse
      (List.pairwise_reverse.mpr hp)
      (fun z hz => hid z (List.mem_reverse.mp hz))

theorem registerLinkMatcher_inv (s : LinkifierState)
    (regex : String → Option (List (Option String))) (handler : Option Nat)
    (options : ILinkMatcherOptions) (hinv : RegistryInv s) :
    RegistryInv (applyReg s ⟨regex, handler, options⟩) := by
  rw [applyReg]
  cases hr : registerLinkMatcher s regex handler options with
  | error e => exact hinv
  | ok p =>
    obtain ⟨s2, newId⟩ := p
    show RegistryInv s2
    rw [registerLinkMatcher] at hr
    split at hr
    · exact absurd hr (by simp)
    · rw [Except.ok.injEq, Prod.mk.injEq] at hr
      obtain ⟨hs2, -⟩ := hr
      subst hs2
      constructor
      · exact addLinkMatcherToList_pairwise s.linkMatchers _ hinv.1
          (fun z hz => hinv.2 z hz)
      · intro z hz
        rcases (mem_addLinkMatcherToList s.linkMatchers _ z).mp hz with rfl | hzl
        · exact Nat.lt_succ_self _
        · exact Nat.lt_succ_of_lt (hinv.2 z hzl)

theorem applyRegs_inv :
    ∀ (rs : List RegReq) (s : LinkifierState), RegistryInv s →
      RegistryInv (applyRegs s rs) := by
  intro rs
  induction rs with
  | nil => intro s h; exact h
  | cons r rest ih =>
    intro s h
    exact ih (applyReg s r) (registerLinkMatcher_inv s r.regex r.handler r.options h)

theorem initState_inv : RegistryInv initState := by
  constructor
  · exact List.pairwise_singleton _ _
  · intro m hm
    rcases List.mem_singleton.mp hm with rfl
    exact Nat.zero_lt_one

/-! Concrete evaluation of the built-in matcher on the example row. -/

theorem rowsFromTo_self (r : Nat) : rowsFromTo r r = [r] := by
  have h : r + 1 - r = 1 := by omega
  rw [rowsFromTo, h]
  rfl

theorem strictUrl_eval_visit :
    strictUrlRegexModel "visit http://example.com now" =
      some [some " http://example.com ", some "http://example.com", some "http://",
        some "example.com", some "example.com", some "example", some "com",
        none, none, none, none, none, none, none, some " "] := rfl

theorem strictUrl_eval_now : strictUrlRegexModel " now" = none := rfl

theorem doLinkifyRow_builtin_visit (s : LinkifierState) (r : Nat) :
    doLinkifyRow 3000 s r "visit http://example.com now" hypertextMatcher 0 =
      ({ s with
          occurrences := s.occurrences ++ [⟨6, r, "http://example.com", 0⟩],
          zones := s.zones ++ [mkZone 6 r "http://example.com" 0] }, none) := rfl

theorem c9_pre (r : Nat) : linkifyRows (attachToDom initState) r r = c9Mid r := rfl

theorem c9_row_eval (r : Nat) :
    linkifyRow 3000 (c9Term r) { c9Mid r with rowsTimeoutId := none } r =
      (c9Final r, none) := by
  have h2 : ¬ ((c9Term r).linesLength ≤ (c9Term r).ydisp + r) := by
    show ¬ (r + 1 ≤ 0 + r)
    omega
  simp only [linkifyRow]
  rw [if_neg h2]
  rfl

theorem c9_scan_eval (r : Nat) :
    timerFire 3000 (linkifyRows (attachToDom initState) r r) (c9Term r) =
      (c9Final r, none) := by
  rw [c9_pre]
  show linkifyRowsLoop 3000 (c9Term r) (rowsFromTo r r)
    { c9Mid r with rowsTimeoutId := none } = _
  rw [rowsFromTo_self, linkifyRowsLoop, c9_row_eval]
  rfl

/-! Small facts about the scheduler operations. -/

theorem linkifyRows_attached (s : LinkifierState) (a b : Nat) (h : s.attached = true) :
    (linkifyRows s a b).rowsTimeoutId = some (a, b) ∧
    (linkifyRows s a b).attached = true ∧
    (linkifyRows s a b).scannedRows = s.scannedRows := by
  rw [linkifyRows, if_neg (by simp [h])]
  exact ⟨rfl, h, rfl⟩

theorem timerFire_pending (fuel : Nat) (s : LinkifierState) (term : TerminalBuffer)
    (c d : Nat) (h : s.rowsTimeoutId = some (c, d)) :
    timerFire fuel s term = linkifyRowsRun fuel s c d term := by
  rw [timerFire, h]

theorem timerFire_idle (fuel : Nat) (s : LinkifierState) (term : TerminalBuffer)
    (h : s.rowsTimeoutId = none) : timerFire fuel s term = (s, none) := by
  rw [timerFire, h]

theorem mem_rowsFromTo (c d i : Nat) : i ∈ rowsFromTo c d ↔ c ≤ i ∧ i ≤ d := by
  rw [rowsFromTo]
  simp only [List.mem_map, List.mem_range]
  constructor
  · rintro ⟨k, hk, rfl⟩
    omega
  · rintro ⟨h1, h2⟩
    exact ⟨i - c, by omega, by omega⟩

theorem doLinkifyRow_emptyMatch_step (n : Nat) (s : LinkifierState) :
    doLinkifyRow (n + 1) s 0 "abc" emptyMatchMatcher 0 =
      doLinkifyRow n
        (addLink { s with occurrences := s.occurrences ++ [⟨0, 0, "", 1⟩] }
          0 0 "" emptyMatchMatcher)
        0 "abc" emptyMatchMatcher 0 := rfl

/-! The claims. -/

/-- C1, counterexample: the claim "if a new scan is requested after an
occurrence is found but before its validation completion is invoked, the
completion never registers a zone" fails on the code.  Concretely: the
first scan of row 0 finds the `"abc"` occurrence and leaves its
validation outstanding; a new scan is then requested (`linkifyRows`,
arming the timer) and its timer fires (clearing `_rowsTimeoutId`); when
the first occurrence's completion is finally invoked with `true`, the
staleness guard sees no pending timer and registers the zone anyway. -/
theorem c1_stale_result_counterexample :
    c1AfterFirstScan.pendingValidations = [c1Occ] ∧
    (linkifyRows c1AfterFirstScan 0 0).rowsTimeoutId = some (0, 0) ∧
    c1AfterSecondScan.rowsTimeoutId = none ∧
    c1AfterSecondScan.zones = [] ∧
    (invokeCompletion c1AfterSecondScan c1Occ true).zones = [⟨1, 4, 1, "abc", 1⟩] :=
  ⟨rfl, rfl, rfl, rfl, rfl⟩

/-- C1, amended: a validation result is discarded (the completion is a
strict no-op, registering no zone) precisely when a scan request's
debounce timer is still pending at the moment the completion function is
invoked; and requesting a scan while attached always leaves such a timer
pending.  (If the superseding scan's timer has already fired by
completion time, the stale result can be accepted — see the
counterexample.) -/
theorem c1_stale_result_amended :
    (∀ (s : LinkifierState) (p : Occurrence) (b : Bool),
        s.rowsTimeoutId.isSome = true → invokeCompletion s p b = s) ∧
    (∀ (s : LinkifierState) (a b : Nat), s.attached = true →
        (linkifyRows s a b).rowsTimeoutId.isSome = true) := by
  constructor
  · intro s p b h
    rw [invokeCompletion, if_pos h]
  · intro s a b h
    rw [linkifyRows, if_neg (by simp [h])]
    rfl

/-- C1, witness for the amended statement at a concrete state. -/
theorem c1_stale_result_amended_witness :
    invokeCompletion (linkifyRows (attachToDom initState) 0 0) c1Occ true =
      linkifyRows (attachToDom initState) 0 0 ∧
    (linkifyRows (attachToDom initState) 2 3).rowsTimeoutId.isSome = true :=
  ⟨c1_stale_result_amended.1 (linkifyRows (attachToDom initState) 0 0) c1Occ true rfl,
   c1_stale_result_amended.2 (attachToDom initState) 2 3 rfl⟩

/-- C2: the claim says `_doLinkifyRow` terminates for every matcher and
row text, the degenerate empty match being explicitly detected.  The
code's check `match.length === 0` tests the length of the match *array*
(never 0 for a successful match), not of the matched string, so a
pattern matching the empty string (here `/x*/` on `"abc"`) makes the
recursion consume nothing and never terminate: every fuel bound is
exhausted.  This contradicts the intended guard, so it is a code bug. -/
theorem c2_empty_match_nontermination :
    ∀ (fuel : Nat) (s : LinkifierState),
      (doLinkifyRow fuel s 0 "abc" emptyMatchMatcher 0).2 = some RowFault.outOfFuel := by
  intro fuel
  induction fuel with
  | zero => intro s; rfl
  | succ n ih =>
    intro s
    rw [doLinkifyRow_emptyMatch_step]
    exact ih _

/-- C3: after any sequence of `registerLinkMatcher` calls starting from
the freshly constructed registry, the matcher list is pairwise ordered:
any earlier entry has strictly greater priority than any later entry, or
equal priority and a smaller id (ids increase with registration order,
so equal-priority entries appear in registration order). -/
theorem c3_registry_sorted (rs : List RegReq) :
    ((applyRegs initState rs).linkMatchers).Pairwise matcherOrd :=
  (applyRegs_inv rs initState initState_inv).1

/-- C4: the claim says `deregisterLinkMatcher(0)` always returns false
and the built-in matcher survives.  The code's loop skips *index* 0, not
*id* 0: after registering a priority-1 matcher the built-in matcher sits
at index 1, and `deregisterLinkMatcher(0)` finds it there, removes it
and returns true — contradicting the code's own comment that the
hypertext link matcher cannot be deregistered. -/
theorem c4_deregister_builtin_bug :
    bugState.linkMatchers.map (fun m => m.id) = [1, 0] ∧
    (deregisterLinkMatcher bugState 0).1 = true ∧
    (deregisterLinkMatcher bugState 0).2.linkMatchers.map (fun m => m.id) = [1] :=
  ⟨rfl, rfl, rfl⟩

/-- C5: the claim says every registered non-built-in matcher can be
deregistered by id.  The code's loop starts at index 1, so a non-built-in
matcher sitting at index 0 (which happens exactly when it out-prioritises
the built-in one) is never examined: `deregisterLinkMatcher(1)` returns
false and the matcher stays — contradicting the documented return
contract. -/
theorem c5_deregister_first_position_bug :
    bugState.linkMatchers.map (fun m => m.id) = [1, 0] ∧
    (deregisterLinkMatcher bugState 1).1 = false ∧
    (deregisterLinkMatcher bugState 1).2.linkMatchers.map (fun m => m.id) = [1, 0] :=
  ⟨rfl, rfl, rfl⟩

/-- C6: the claim says the setters mutate the entry whose *id* is 0.  The
code indexes `_linkMatchers[0]` positionally: once a higher-priority
matcher occupies index 0, `setHypertextLinkHandler` and
`setHypertextValidationCallback` mutate that matcher (id 1) and leave the
built-in id-0 entry untouched. -/
theorem c6_set_handler_index_bug :
    bugState.linkMatchers.map (fun m => (m.id, m.handler)) = [(1, some 7), (0, none)] ∧
    (setHypertextLinkHandler bugState (some 9)).linkMatchers.map
      (fun m => (m.id, m.handler)) = [(1, some 9), (0, none)] ∧
    (setHypertextValidationCallback bugState (some 3)).linkMatchers.map
      (fun m => (m.id, m.validationCallback)) = [(1, some 3), (0, none)] :=
  ⟨rfl, rfl, rfl⟩

/-- C7: two `linkifyRows` requests while attached, the second before the
first's timer fires, leave exactly one pending timer carrying the second
range; firing it scans exactly the rows of the second inclusive range
(provided the scan completes without a fault), clears the pending marker,
and a further fire is a no-op — the first request's range is discarded,
not merged. -/
theorem c7_debounce_coalesce (s : LinkifierState) (h : s.attached = true)
    (a b c d fuel : Nat) (term : TerminalBuffer)
    (hok : (timerFire fuel (linkifyRows (linkifyRows s a b) c d) term).2 = none) :
    (linkifyRows (linkifyRows s a b) c d).rowsTimeoutId = some (c, d) ∧
    (timerFire fuel (linkifyRows (linkifyRows s a b) c d) term).1.scannedRows =
      (linkifyRows (linkifyRows s a b) c d).scannedRows ++ rowsFromTo c d ∧
    (∀ i : Nat, i ∈ rowsFromTo c d ↔ c ≤ i ∧ i ≤ d) ∧
    (timerFire fuel (linkifyRows (linkifyRows s a b) c d) term).1.rowsTimeoutId = none ∧
    timerFire fuel (timerFire fuel (linkifyRows (linkifyRows s a b) c d) term).1 term =
      ((timerFire fuel (linkifyRows (linkifyRows s a b) c d) term).1, none) := by
  obtain ⟨-, ha1, -⟩ := linkifyRows_attached s a b h
  obtain ⟨ht2, -, -⟩ := linkifyRows_attached (linkifyRows s a b) c d ha1
  rw [timerFire_pending fuel _ term c d ht2] at hok ⊢
  rw [linkifyRowsRun] at hok ⊢
  have hto := linkifyRowsLoop_timeout fuel term (rowsFromTo c d)
    { linkifyRows (linkifyRows s a b) c d with rowsTimeoutId := none }
  refine ⟨ht2, ?_, fun i => mem_rowsFromTo c d i, hto, ?_⟩
  · exact linkifyRowsLoop_scanned fuel term (rowsFromTo c d) _ hok
  · exact timerFire_idle fuel _ term hto

/-- C7, witness: a concrete pair of requests over an empty buffer. -/
theorem c7_debounce_coalesce_witness :
    (linkifyRows (linkifyRows (attachToDom initState) 0 1) 2 3).rowsTimeoutId = some (2, 3) ∧
    (timerFire 5 (linkifyRows (linkifyRows (attachToDom initState) 0 1) 2 3)
        ⟨0, 0, fun _ => ""⟩).1.scannedRows =
      (linkifyRows (linkifyRows (attachToDom initState) 0 1) 2 3).scannedRows ++
        rowsFromTo 2 3 ∧
    (∀ i : Nat, i ∈ rowsFromTo 2 3 ↔ 2 ≤ i ∧ i ≤ 3) ∧
    (timerFire 5 (linkifyRows (linkifyRows (attachToDom initState) 0 1) 2 3)
        ⟨0, 0, fun _ => ""⟩).1.rowsTimeoutId = none ∧
    timerFire 5 (timerFire 5 (linkifyRows (linkifyRows (attachToDom initState) 0 1) 2 3)
        ⟨0, 0, fun _ => ""⟩).1 ⟨0, 0, fun _ => ""⟩ =
      ((timerFire 5 (linkifyRows (linkifyRows (attachToDom initState) 0 1) 2 3)
        ⟨0, 0, fun _ => ""⟩).1, none) :=
  c7_debounce_coalesce (attachToDom initState) rfl 0 1 2 3 5 ⟨0, 0, fun _ => ""⟩ rfl

/-- C8: after construction (`_nextLinkMatcherId ≠ 0`),
`registerLinkMatcher` throws the configuration error exactly when the
handler is absent (leaving the registry untouched, since the check
precedes every mutation), and otherwise succeeds, returning the current
counter value as the fresh id and bumping the counter. -/
theorem c8_register_handler_required (s : LinkifierState)
    (regex : String → Option (List (Option String))) (handler : Option Nat)
    (options : ILinkMatcherOptions) (h : s.nextLinkMatcherId ≠ 0) :
    (registerLinkMatcher s regex handler options =
        Except.error "handler must be defined" ↔ handler = none) ∧
    (handler ≠ none → ∃ s2, registerLinkMatcher s regex handler options =
        Except.ok (s2, s.nextLinkMatcherId) ∧
      s2.nextLinkMatcherId = s.nextLinkMatcherId + 1) := by
  constructor
  · constructor
    · intro he
      by_contra hn
      rw [registerLinkMatcher, if_neg (by tauto)] at he
      exact absurd he (by simp)
    · intro hn
      rw [registerLinkMatcher, if_pos ⟨h, hn⟩]
  · intro hn
    rw [registerLinkMatcher, if_neg (by tauto)]
    exact ⟨_, rfl, rfl⟩

/-- C8, witness: registering with a present handler on the freshly
constructed linkifier. -/
theorem c8_register_handler_required_witness :
    initState.nextLinkMatcherId ≠ 0 ∧
    ((registerLinkMatcher initState neverMatchRegexModel (some 5) {} =
        Except.error "handler must be defined" ↔ (some 5 : Option Nat) = none) ∧
     ((some 5 : Option Nat) ≠ none →
        ∃ s2, registerLinkMatcher initState neverMatchRegexModel (some 5) {} =
            Except.ok (s2, initState.nextLinkMatcherId) ∧
          s2.nextLinkMatcherId = initState.nextLinkMatcherId + 1)) :=
  ⟨by decide,
   c8_register_handler_required initState neverMatchRegexModel (some 5) {} (by decide)⟩

/-- C9: with only the built-in matcher registered, scanning a row whose
text is `"visit http://example.com now"` finds exactly one occurrence —
link text `"http://example.com"` at 0-based column 6 — and registers
exactly one zone spanning 1-based columns `[7, 25)` on 1-based row
`r + 1`, with no fault. -/
theorem c9_builtin_url_scan (r : Nat) :
    initState.linkMatchers = [hypertextMatcher] ∧
    (timerFire 3000 (linkifyRows (attachToDom initState) r r) (c9Term r)).1.occurrences =
      [⟨6, r, "http://example.com", 0⟩] ∧
    (timerFire 3000 (linkifyRows (attachToDom initState) r r) (c9Term r)).1.zones =
      [⟨7, 25, r + 1, "http://example.com", 0⟩] ∧
    (timerFire 3000 (linkifyRows (attachToDom initState) r r) (c9Term r)).2 = none := by
  refine ⟨rfl, ?_, ?_, ?_⟩ <;> (rw [c9_scan_eval]; try rfl)

/-- C10: a scan pass (timer fire) never modifies the matcher registry —
the matcher list, the id counter and the attachment flag are identical
before and after, and the zone list and outstanding validations only
grow; this holds for every state, buffer and fuel, whether or not the
pass runs to completion. -/
theorem c10_scan_frame (fuel : Nat) (s : LinkifierState) (term : TerminalBuffer) :
    (timerFire fuel s term).1.linkMatchers = s.linkMatchers ∧
    ScanFrame s (timerFire fuel s term).1 := by
  have hf : ScanFrame s (timerFire fuel s term).1 := by
    rw [timerFire]
    cases h : s.rowsTimeoutId with
    | none => exact scanFrame_refl s
    | some p =>
      cases p with
      | mk a b => exact linkifyRowsRun_frame fuel s a b term
  exact ⟨hf.1, hf⟩

end LinkifierModel
